import Mathlib

/-!
Shallow embedding of the risk-analytics engine of this repository
(src/risk_metrics.py and src/credit_risk.py).

Machine floats are modelled by exact rationals.  Irrational primitives
(np.sqrt, scipy.stats.norm.ppf at interior points) are not recomputed:
each function receives the value the source would compute for them as an
explicit argument (for credit_var, a function-valued argument), and the
theorems constrain those arguments by the algebraic facts that
characterise them (for example sqrt 1 = 1, sqrt 0 = 0, norm.ppf(1/2) = 0).
The NumPy global random stream seeded by np.random.seed(42) is modelled
as an explicit stream of standard-normal deviates passed to the two
stochastic functions; the fixed seed means the source always consumes
one such fixed stream.
-/

/-- Population mean, np.mean.  (Division by zero on the empty list is
never exercised by the theorems below; NumPy would produce NaN there.) -/
def npMean (l : List ℚ) : ℚ := l.sum / l.length

/-- Population variance, the square of np.std (ddof = 0). -/
def npVar (l : List ℚ) : ℚ := ((l.map (fun x => (x - npMean l) ^ 2)).sum) / l.length

/-- np.max of a non-empty list (the default 0 for the empty list is never
exercised: every caller fails earlier on an empty sample). -/
def npMax (l : List ℚ) : ℚ := l.foldl max (l.headD 0)

/-- The linear-interpolation step of np.percentile on an already sorted
list, at fractional rank h: interpolate between the order statistics at
positions floor h and floor h + 1. -/
def percentile_interp (l : List ℚ) (h : ℚ) : Option ℚ :=
  match l[(⌊h⌋).toNat]?, l[(⌊h⌋).toNat + 1]? with
  | some a, some b => some (a + (h - ((⌊h⌋).toNat : ℚ)) * (b - a))
  | some a, none => some a
  | none, _ => none

/-- np.percentile(xs, q) with the default linear interpolation: sort
ascending, set h = q/100 * (n-1), and interpolate between the two
neighbouring order statistics.  none models the exceptions NumPy raises
on an empty array or on a percentile outside [0, 100]. -/
def np_percentile (xs : List ℚ) (q : ℚ) : Option ℚ :=
  if xs = [] then none
  else if q < 0 ∨ 100 < q then none
  else percentile_interp (List.insertionSort (· ≤ ·) xs)
    (q / 100 * ((xs.length : ℚ) - 1))

/-- historical_var of src/risk_metrics.py.  sqrtH is the value of
np.sqrt(holding_period) computed by the source (1 for the default
holding period 1, 0 for holding period 0). -/
def historical_var (returns : List ℚ) (confidence sqrtH : ℚ) : Option ℚ :=
  (np_percentile (returns.map (fun r => r * sqrtH)) ((1 - confidence) * 100)).map
    (fun v => |v|)

/-- parametric_var of src/risk_metrics.py.  z is the value of
stats.norm.ppf(1 - confidence) (negative for confidence > 1/2), sigma is
the value of returns.std() (so sigma ^ 2 = npVar returns and 0 ≤ sigma),
and sqrtH the value of np.sqrt(holding_period). -/
def parametric_var (returns : List ℚ) (z h sqrtH sigma : ℚ) : ℚ :=
  -(npMean returns * h + z * sigma * sqrtH)

/-- monte_carlo_var of src/risk_metrics.py.  g is the stream of standard
normal deviates drawn from the generator seeded with 42; the source
computes sims = mu*h + sigma*sqrt(h) * g and takes the absolute
(1-confidence)-percentile. -/
def monte_carlo_var (g : ℕ → ℚ) (returns : List ℚ) (n_sims : ℕ)
    (confidence h sqrtH sigma : ℚ) : Option ℚ :=
  let mu := npMean returns
  let sims := (List.range n_sims).map (fun t => mu * h + sigma * sqrtH * g t)
  (np_percentile sims ((1 - confidence) * 100)).map (fun v => |v|)

/-- expected_shortfall of src/risk_metrics.py: historical VaR at holding
period 1 (np.sqrt 1 = 1), then the absolute mean of the returns strictly
below -var, falling back to var itself when that tail is empty. -/
def expected_shortfall (returns : List ℚ) (confidence : ℚ) : Option ℚ :=
  match historical_var returns confidence 1 with
  | none => none
  | some var =>
    let tail := returns.filter (fun r => r < -var)
    if 0 < tail.length then some |npMean tail| else some var

/-- Sequences the per-index computations of the rolling_var loop: the
source writes into a preallocated array and an exception in any
iteration aborts the whole call, which collect models by returning
none as soon as one entry is none. -/
def collect : List (Option α) → Option (List α)
  | [] => some []
  | none :: _ => none
  | some a :: rest => (collect rest).map (fun l => a :: l)

/-- The entry the rolling_var loop produces for index i: nan (modelled
as some none) for i < window, otherwise the historical VaR of
returns[i-window : i] at holding period 1. -/
def rolling_entry (returns : List ℚ) (window : ℕ) (confidence : ℚ) (i : ℕ) :
    Option (Option ℚ) :=
  if i < window then some none
  else (historical_var ((returns.drop (i - window)).take window) confidence 1).map
    (fun v => some v)

/-- rolling_var of src/risk_metrics.py: a series aligned with the input,
nan (none) before index window, the windowed historical VaR afterwards. -/
def rolling_var (returns : List ℚ) (window : ℕ) (confidence : ℚ) :
    Option (List (Option ℚ)) :=
  collect ((List.range returns.length).map (rolling_entry returns window confidence))

/-- The traffic-light status of the backtest. -/
inductive TrafficLight where
  | GREEN
  | YELLOW
  | RED
deriving DecidableEq

/-- The record returned by var_backtest. -/
structure BacktestResult where
  exceptions : ℕ
  total_days : ℕ
  exception_rate : ℚ
  expected_rate : ℚ
  status : TrafficLight
deriving DecidableEq

/-- var_backtest of src/risk_metrics.py.  nan entries in the VaR series
are modelled as none and filtered out exactly as the source's boolean
mask does; an exception is a day with actual < -predicted.  The source
divides by the number of scored days, so a fully undefined series would
yield a NaN rate: that degenerate division is modelled as none. -/
def var_backtest (returns : List ℚ) (var_series : List (Option ℚ))
    (confidence : ℚ) : Option BacktestResult :=
  let pairs := (returns.zip var_series).filterMap
    (fun p => p.2.map (fun v => (p.1, v)))
  let exceptions := (pairs.filter (fun p => p.1 < -p.2)).length
  let total := pairs.length
  if total = 0 then none
  else
    let exception_rate := (exceptions : ℚ) / (total : ℚ)
    let expected_rate := 1 - confidence
    let status :=
      if exception_rate < expected_rate * (3 / 2) then TrafficLight.GREEN
      else if exception_rate < expected_rate * 2 then TrafficLight.YELLOW
      else TrafficLight.RED
    some ⟨exceptions, total, exception_rate, expected_rate, status⟩

/-- The quadratic form weights^T · cov · weights computed by
portfolio_var of src/risk_metrics.py. -/
def quadForm (weights : List ℚ) (cov : List (List ℚ)) : ℚ :=
  ((List.range weights.length).map (fun i =>
    ((List.range weights.length).map (fun j =>
      weights.getD i 0 * (cov.getD i []).getD j 0 * weights.getD j 0)).sum)).sum

/-- portfolio_var of src/risk_metrics.py.  sqrtQ is the value of
np.sqrt(quadForm weights cov) (so sqrtQ ^ 2 = quadForm weights cov and
0 ≤ sqrtQ whenever the form is non-negative), and z the value of
stats.norm.ppf(confidence) — the upper-quantile convention of the
source, positive for confidence > 1/2. -/
def portfolio_var (sqrtQ z portfolio_value : ℚ) : ℚ :=
  sqrtQ * z * portfolio_value

/-- stats.norm.ppf as used by credit_var of src/credit_risk.py, valued
in extended rationals: it saturates to -infinity at p = 0 and to
+infinity at p = 1, and takes the (irrational) interior value f p for
0 < p < 1, where f is the abstract interior inverse CDF (about which the
theorems only use concrete exact values such as f (1/2) = 0).  For p
outside [0, 1] SciPy yields NaN, whose every "<" comparison is false,
which the bottom element reproduces on the right of "<". -/
def normPpf (f : ℚ → ℚ) (p : ℚ) : WithBot (WithTop ℚ) :=
  if p = 0 then ⊥
  else if p = 1 then ((⊤ : WithTop ℚ) : WithBot (WithTop ℚ))
  else if 0 < p ∧ p < 1 then (((f p : ℚ) : WithTop ℚ) : WithBot (WithTop ℚ))
  else ⊥

/-- The per-counterparty default test of credit_var: asset < threshold,
with the threshold the saturating inverse normal CDF of the
counterparty's default probability. -/
def counterparty_defaults (f : ℚ → ℚ) (asset pd : ℚ) : Bool :=
  decide ((((asset : ℚ) : WithTop ℚ) : WithBot (WithTop ℚ)) < normPpf f pd)

/-- One trial of the credit_var Monte Carlo loop: latent asset value
sq(rho)*z + sq(1-rho)*eps_i per counterparty, default below the
threshold, and the loss summed as defaults * exposures * lgds.  sq is
the value np.sqrt takes at the two points rho and 1 - rho. -/
def trial_loss (sq f : ℚ → ℚ) (exposures pds lgds : List ℚ)
    (correlation z : ℚ) (eps : ℕ → ℚ) : ℚ :=
  ((List.range exposures.length).map (fun i =>
    if counterparty_defaults f (sq correlation * z + sq (1 - correlation) * eps i)
        (pds.getD i 0)
    then exposures.getD i 0 * lgds.getD i 0 else 0)).sum

/-- The record returned by credit_var: sample mean, the
confidence-percentile and the sample maximum of the simulated losses. -/
structure CreditVarResult where
  expected_loss : ℚ
  credit_var : ℚ
  worst_case : ℚ
deriving DecidableEq

/-- credit_var of src/credit_risk.py.  normals is the stream of draws of
the generator seeded with 42: trial t uses the systematic factor
(normals t).1 and the idiosyncratic factors (normals t).2.  The
percentile of an empty loss sample (n_sims = 0) raises in NumPy, which
the none branch models; the source computes the (possibly NaN) mean
first but never returns it in that case. -/
def credit_var (sq f : ℚ → ℚ) (normals : ℕ → ℚ × (ℕ → ℚ))
    (exposures pds lgds : List ℚ) (correlation : ℚ) (n_sims : ℕ)
    (confidence : ℚ) : Option CreditVarResult :=
  let losses := (List.range n_sims).map (fun t =>
    trial_loss sq f exposures pds lgds correlation (normals t).1 (normals t).2)
  match np_percentile losses (confidence * 100) with
  | none => none
  | some v => some ⟨npMean losses, v, npMax losses⟩

/-! ## Helper lemmas -/

theorem le_foldl_max (l : List ℚ) : ∀ a : ℚ, a ≤ l.foldl max a := by
  induction l with
  | nil => intro a; simp
  | cons x xs ih =>
    intro a
    exact le_trans (le_max_left a x) (ih (max a x))

theorem mem_le_foldl_max (l : List ℚ) (x : ℚ) (hx : x ∈ l) :
    ∀ a : ℚ, x ≤ l.foldl max a := by
  induction l with
  | nil => cases hx
  | cons y ys ih =>
    intro a
    rcases List.mem_cons.1 hx with rfl | hx2
    · exact le_trans (le_max_right a x) (le_foldl_max ys (max a x))
    · exact ih hx2 (max a y)

theorem le_npMax_of_mem {l : List ℚ} {x : ℚ} (hx : x ∈ l) : x ≤ npMax l :=
  mem_le_foldl_max l x hx (l.headD 0)

theorem sum_le_mul_length (l : List ℚ) (c : ℚ) (h : ∀ x ∈ l, x ≤ c) :
    l.sum ≤ c * l.length := by
  induction l with
  | nil => simp
  | cons x xs ih =>
    have h1 : x ≤ c := h x (List.mem_cons_self x xs)
    have h2 : xs.sum ≤ c * xs.length :=
      ih (fun y hy => h y (List.mem_cons_of_mem x hy))
    simp only [List.sum_cons, List.length_cons]
    push_cast
    linarith

theorem sum_map_neg (l : List ℚ) : (l.map (fun x => -x)).sum = -l.sum := by
  induction l with
  | nil => simp
  | cons x xs ih => simp [ih]; ring

theorem npMean_le_npMax (l : List ℚ) (hne : l ≠ []) : npMean l ≤ npMax l := by
  have hlen : 0 < (l.length : ℚ) := by
    have : l.length ≠ 0 := by simpa [List.length_eq_zero] using hne
    exact_mod_cast Nat.pos_of_ne_zero this
  have hsum : l.sum ≤ npMax l * l.length :=
    sum_le_mul_length l (npMax l) (fun x hx => le_npMax_of_mem hx)
  rw [npMean, div_le_iff₀ hlen]
  exact hsum

theorem percentile_interp_le (l : List ℚ) (hq M v : ℚ) (h0 : 0 ≤ hq)
    (hM : ∀ x ∈ l, x ≤ M) (hv : percentile_interp l hq = some v) : v ≤ M := by
  have hcast : (((⌊hq⌋).toNat : ℤ) : ℚ) = ((⌊hq⌋ : ℤ) : ℚ) := by
    rw [Int.toNat_of_nonneg (Int.floor_nonneg.2 h0)]
  have hfrac0 : 0 ≤ hq - (((⌊hq⌋).toNat : ℕ) : ℚ) := by
    have h1 : ((⌊hq⌋ : ℤ) : ℚ) ≤ hq := Int.floor_le hq
    push_cast at hcast ⊢
    linarith
  have hfrac1 : hq - (((⌊hq⌋).toNat : ℕ) : ℚ) ≤ 1 := by
    have h1 : hq < ((⌊hq⌋ : ℤ) : ℚ) + 1 := Int.lt_floor_add_one hq
    push_cast at hcast ⊢
    linarith
  unfold percentile_interp at hv
  split at hv
  · rename_i a b ha hb
    have haM : a ≤ M := hM a (List.getElem?_mem ha)
    have hbM : b ≤ M := hM b (List.getElem?_mem hb)
    have hveq : a + (hq - (((⌊hq⌋).toNat : ℕ) : ℚ)) * (b - a) = v :=
      Option.some_injective _ hv
    nlinarith
  · rename_i a ha hb
    have haM : a ≤ M := hM a (List.getElem?_mem ha)
    have hveq : a = v := Option.some_injective _ hv
    linarith
  · exact absurd hv (by simp)

theorem percentile_interp_isSome (l : List ℚ) (hq : ℚ)
    (hlt : (⌊hq⌋).toNat < l.length) : ∃ v, percentile_interp l hq = some v := by
  unfold percentile_interp
  have h1 : l[(⌊hq⌋).toNat]? = some (l.get ⟨(⌊hq⌋).toNat, hlt⟩) :=
    List.getElem?_eq_getElem hlt
  rcases h2 : l[(⌊hq⌋).toNat + 1]? with _ | b
  · rw [h1]
    exact ⟨_, rfl⟩
  · rw [h1]
    exact ⟨_, rfl⟩

theorem np_percentile_le_npMax (xs : List ℚ) (q v : ℚ)
    (h : np_percentile xs q = some v) : v ≤ npMax xs := by
  unfold np_percentile at h
  split at h
  · exact absurd h (by simp)
  split at h
  · exact absurd h (by simp)
  rename_i hne hq
  push_neg at hq
  refine percentile_interp_le _ _ (npMax xs) v ?_ ?_ h
  · have h1 : (1 : ℚ) ≤ (xs.length : ℚ) := by
      have : xs.length ≠ 0 := by simpa [List.length_eq_zero] using hne
      exact_mod_cast Nat.one_le_iff_ne_zero.2 this
    have h2 : (0 : ℚ) ≤ q / 100 := div_nonneg hq.1 (by norm_num)
    nlinarith
  · intro x hx
    exact le_npMax_of_mem ((List.perm_insertionSort (· ≤ ·) xs).subset hx)

theorem np_percentile_isSome (xs : List ℚ) (q : ℚ) (hne : xs ≠ [])
    (h0 : 0 ≤ q) (h100 : q ≤ 100) : ∃ v, np_percentile xs q = some v := by
  unfold np_percentile
  rw [if_neg hne, if_neg (by push_neg; exact ⟨h0, h100⟩)]
  apply percentile_interp_isSome
  rw [(List.perm_insertionSort (· ≤ ·) xs).length_eq]
  have hn1 : 1 ≤ xs.length := by
    have : xs.length ≠ 0 := by simpa [List.length_eq_zero] using hne
    omega
  have hq1 : q / 100 ≤ 1 := (div_le_one (by norm_num : (0 : ℚ) < 100)).2 h100
  have hq0 : (0 : ℚ) ≤ q / 100 := div_nonneg h0 (by norm_num)
  have hlen1 : (0 : ℚ) ≤ (xs.length : ℚ) - 1 := by
    have : (1 : ℚ) ≤ (xs.length : ℚ) := by exact_mod_cast hn1
    linarith
  have hhle : q / 100 * ((xs.length : ℚ) - 1) ≤ (xs.length : ℚ) - 1 := by
    nlinarith
  have hfl : ⌊q / 100 * ((xs.length : ℚ) - 1)⌋ ≤ (xs.length : ℤ) - 1 := by
    calc ⌊q / 100 * ((xs.length : ℚ) - 1)⌋ ≤ ⌊(xs.length : ℚ) - 1⌋ :=
          Int.floor_mono hhle
      _ = (xs.length : ℤ) - 1 := by
          rw [show ((xs.length : ℚ) - 1) = (((xs.length : ℤ) - 1 : ℤ) : ℚ) by
            push_cast; ring]
          exact Int.floor_intCast _
  omega


theorem collect_map {γ β : Type} (l : List γ) (F : γ → Option β) (G : γ → β)
    (h : ∀ a ∈ l, F a = some (G a)) : collect (l.map F) = some (l.map G) := by
  induction l with
  | nil => rfl
  | cons x xs ih =>
    simp only [List.map_cons]
    rw [h x (List.mem_cons_self x xs), collect,
      ih (fun a ha => h a (List.mem_cons_of_mem x ha))]
    rfl

theorem map_abs_eq_some_nonneg {o : Option ℚ} {v : ℚ}
    (h : o.map (fun x => |x|) = some v) : 0 ≤ v := by
  rcases o with _ | u
  · exact absurd h (by simp)
  · have : |u| = v := by simpa using h
    rw [← this]
    exact abs_nonneg u

theorem historical_var_nonneg {returns : List ℚ} {confidence sqrtH v : ℚ}
    (h : historical_var returns confidence sqrtH = some v) : 0 ≤ v :=
  map_abs_eq_some_nonneg h

theorem historical_var_isSome (returns : List ℚ) (confidence sqrtH : ℚ)
    (hne : returns ≠ []) (h0 : 0 ≤ confidence) (h1 : confidence ≤ 1) :
    ∃ v, historical_var returns confidence sqrtH = some v := by
  unfold historical_var
  obtain ⟨u, hu⟩ := np_percentile_isSome (returns.map (fun r => r * sqrtH))
    ((1 - confidence) * 100)
    (by simpa [List.map_eq_nil_iff] using hne) (by nlinarith) (by nlinarith)
  exact ⟨|u|, by rw [hu]; rfl⟩

theorem credit_var_isSome (sq f : ℚ → ℚ) (normals : ℕ → ℚ × (ℕ → ℚ))
    (exposures pds lgds : List ℚ) (correlation : ℚ) (n_sims : ℕ)
    (confidence : ℚ) (hn : 1 ≤ n_sims) (h0 : 0 ≤ confidence)
    (h1 : confidence ≤ 1) :
    ∃ r, credit_var sq f normals exposures pds lgds correlation n_sims
      confidence = some r := by
  unfold credit_var
  obtain ⟨v, hv⟩ := np_percentile_isSome
    ((List.range n_sims).map (fun t =>
      trial_loss sq f exposures pds lgds correlation (normals t).1 (normals t).2))
    (confidence * 100)
    (by simp [List.map_eq_nil_iff, List.range_eq_nil]; omega)
    (by nlinarith) (by nlinarith)
  simp only [hv]
  exact ⟨_, rfl⟩

/-! ## Claim C1 -/

/-- Claim C1, counterexample: with confidence 0.9 (expected rate 1/10)
and 3 exceptions in 20 scored days the exception rate is exactly
1.5 times the expected rate, yet var_backtest classifies the result
YELLOW, not GREEN: the GREEN test of the source is a strict "<". -/
theorem C1_counterexample :
    var_backtest (List.replicate 3 (-2) ++ List.replicate 17 0)
      (List.replicate 20 (some 1)) (9 / 10) =
      some ⟨3, 20, 3 / 20, 1 / 10, TrafficLight.YELLOW⟩ ∧
    (3 / 20 : ℚ) = 3 / 2 * (1 / 10) := by
  refine ⟨?_, by norm_num⟩
  simp only [var_backtest]
  norm_num [List.replicate, List.zip, List.filterMap, List.filter]

/-- Claim C1 as amended: whenever var_backtest returns a result whose
exception rate is exactly 1.5 times the (positive) expected rate the
status is YELLOW, and whenever the exception rate is exactly 2 times
the (non-negative) expected rate the status is RED. -/
theorem C1_traffic_light_boundary (returns : List ℚ)
    (var_series : List (Option ℚ)) (confidence : ℚ) (r : BacktestResult)
    (h : var_backtest returns var_series confidence = some r) :
    (r.exception_rate = 3 / 2 * r.expected_rate → 0 < r.expected_rate →
      r.status = TrafficLight.YELLOW) ∧
    (r.exception_rate = 2 * r.expected_rate → 0 ≤ r.expected_rate →
      r.status = TrafficLight.RED) := by
  simp only [var_backtest] at h
  split at h
  · exact absurd h (by simp)
  · have hr := Option.some_injective _ h
    subst hr
    constructor
    · intro h15 hpos
      simp only at h15 hpos ⊢
      rw [if_neg (by rw [h15]; intro hlt; linarith), if_pos (by rw [h15]; linarith)]
    · intro h2 hpos
      simp only at h2 hpos ⊢
      rw [if_neg (by rw [h2]; intro hlt; linarith),
        if_neg (by rw [h2]; intro hlt; linarith)]

/-- Witness for the amended C1 theorem: 4 exceptions in 20 days at
confidence 0.9 give an exception rate of exactly 2 times the expected
rate and status RED. -/
theorem C1_traffic_light_boundary_witness :
    (⟨4, 20, 1 / 5, 1 / 10, TrafficLight.RED⟩ : BacktestResult).status =
      TrafficLight.RED :=
  (C1_traffic_light_boundary (List.replicate 4 (-2) ++ List.replicate 16 0)
    (List.replicate 20 (some 1)) (9 / 10) _
    (by simp only [var_backtest]
        norm_num [List.replicate, List.zip, List.filterMap, List.filter])).2
    (by norm_num) (by norm_num)

/-! ## Claim C2 -/

/-- Claim C2, counterexample: on the constant series [0.1, 0.1, 0.1] the
sample standard deviation is exactly 0, so parametric_var returns
-(mean * holding_period) = -0.1 < 0 whatever the normal quantile z is
(z = -2 here is a stand-in for stats.norm.ppf(0.05); it is multiplied
by sigma = 0 and cannot influence the result).  parametric_var therefore
does not always return a non-negative loss magnitude. -/
theorem C2_counterexample :
    parametric_var [1 / 10, 1 / 10, 1 / 10] (-2) 1 1 0 = -(1 / 10) ∧
    ¬(0 : ℚ) ≤ -(1 / 10) := by
  constructor
  · norm_num [parametric_var, npMean]
  · norm_num

/-- Claim C2 as amended: historical_var and monte_carlo_var always
return non-negative magnitudes (they take an absolute value), and
portfolio_var is non-negative whenever the square root of the quadratic
form and the upper normal quantile z are non-negative (z ≥ 0 holds for
confidence ≥ 1/2); parametric_var carries no such guarantee. -/
theorem C2_nonneg :
    (∀ (returns : List ℚ) (confidence sqrtH v : ℚ),
      historical_var returns confidence sqrtH = some v → 0 ≤ v) ∧
    (∀ (g : ℕ → ℚ) (returns : List ℚ) (n_sims : ℕ) (confidence h sqrtH sigma v : ℚ),
      monte_carlo_var g returns n_sims confidence h sqrtH sigma = some v → 0 ≤ v) ∧
    (∀ (weights : List ℚ) (cov : List (List ℚ)) (sqrtQ z pv : ℚ),
      sqrtQ ^ 2 = quadForm weights cov → 0 ≤ sqrtQ → 0 ≤ z → 0 ≤ pv →
      0 ≤ portfolio_var sqrtQ z pv) := by
  refine ⟨?_, ?_, ?_⟩
  · intro returns confidence sqrtH v h
    exact historical_var_nonneg h
  · intro g returns n_sims confidence h sqrtH sigma v hv
    exact map_abs_eq_some_nonneg hv
  · intro weights cov sqrtQ z pv hq h0 hz hpv
    unfold portfolio_var
    positivity

/-- Witness for the amended C2 theorem, each conjunct applied at a
concrete input: the historical VaR of the six-observation demo series
at confidence 0.95, a three-trial Monte Carlo VaR, and a 1x1 portfolio. -/
theorem C2_nonneg_witness :
    (0 : ℚ) ≤ 29 / 400 ∧ (0 : ℚ) ≤ 1 / 10 ∧ (0 : ℚ) ≤ portfolio_var 1 1 1 := by
  refine ⟨?_, ?_, ?_⟩
  · refine C2_nonneg.1 [-1/20, 1/50, -3/100, 1/100, -2/25, 1/25] (19/20) 1 (29/400) ?_
    norm_num [historical_var, np_percentile, percentile_interp, List.insertionSort,
      List.orderedInsert]
    exact ⟨-(29/400), ⟨by simp, rfl⟩, by norm_num⟩
  · refine C2_nonneg.2.1 (fun _ => 0) [1/10] 3 (19/20) 1 1 0 (1/10) ?_
    norm_num [monte_carlo_var, np_percentile, percentile_interp, List.insertionSort,
      List.orderedInsert, npMean, List.range_succ]
    exact ⟨1/10, ⟨by simp, rfl⟩, by norm_num⟩
  · exact C2_nonneg.2.2 [1] [[1]] 1 1 1 (by norm_num [quadForm, List.range_succ]) (by norm_num)
      (by norm_num) (by norm_num)

/-! ## Claim C3 -/

/-- Claim C3, counterexample: one counterparty with exposure 1, lgd 1
and pd 1/2 (whose threshold is norm.ppf(1/2) = 0 exactly), correlation
0 (np.sqrt 0 = 0, np.sqrt 1 = 1, both exact), three trials of which
only the last defaults.  The simulated losses are [0, 0, 1]; at
confidence 0.5 the percentile is 0 while the sample mean is 1/3, so
value_at_risk ≥ expected_loss fails. -/
theorem C3_counterexample :
    credit_var (fun x => x) (fun _ => 0)
      (fun t => (0, fun _ => if t = 2 then -1 else 1))
      [1] [1 / 2] [1] 0 3 (1 / 2) = some ⟨1 / 3, 0, 1⟩ ∧
    ¬((1 : ℚ) / 3 ≤ 0) := by
  constructor
  · norm_num [credit_var, trial_loss, counterparty_defaults, normPpf, np_percentile,
      percentile_interp, npMean, npMax, List.insertionSort, List.orderedInsert,
      List.range_succ]
    rfl
  · norm_num

/-- Claim C3 as amended: for every result credit_var returns, the sample
maximum dominates both the percentile and the sample mean
(worst_case ≥ value_at_risk and worst_case ≥ expected_loss); the claimed
value_at_risk ≥ expected_loss ordering does not hold in general. -/
theorem C3_quantile_ordering (sq f : ℚ → ℚ) (normals : ℕ → ℚ × (ℕ → ℚ))
    (exposures pds lgds : List ℚ) (correlation : ℚ) (n_sims : ℕ)
    (confidence : ℚ) (r : CreditVarResult)
    (h : credit_var sq f normals exposures pds lgds correlation n_sims
      confidence = some r) :
    r.credit_var ≤ r.worst_case ∧ r.expected_loss ≤ r.worst_case := by
  simp only [credit_var] at h
  split at h
  · exact absurd h (by simp)
  · rename_i v hv
    have hr := Option.some_injective _ h
    subst hr
    have hne : (List.range n_sims).map (fun t =>
        trial_loss sq f exposures pds lgds correlation (normals t).1
          (normals t).2) ≠ [] := by
      intro he
      rw [he] at hv
      simp [np_percentile] at hv
    exact ⟨np_percentile_le_npMax _ _ _ hv, npMean_le_npMax _ hne⟩

/-- Witness for the amended C3 theorem at a concrete one-trial input
whose only loss is 0: both orderings hold at the returned record. -/
theorem C3_quantile_ordering_witness :
    (⟨0, 0, 0⟩ : CreditVarResult).credit_var ≤
      (⟨0, 0, 0⟩ : CreditVarResult).worst_case ∧
    (⟨0, 0, 0⟩ : CreditVarResult).expected_loss ≤
      (⟨0, 0, 0⟩ : CreditVarResult).worst_case := by
  refine C3_quantile_ordering (fun x => x) (fun _ => 0)
    (fun _ => (0, fun _ => 1)) [1] [1 / 2] [1] 0 1 (1 / 2) ⟨0, 0, 0⟩ ?_
  norm_num [credit_var, trial_loss, counterparty_defaults, normPpf, np_percentile,
    percentile_interp, npMean, npMax, List.insertionSort, List.orderedInsert,
    List.range_succ]

/-! ## Claim C4 -/

/-- Claim C4, counterexample: with holding_period = 0 (np.sqrt 0 = 0,
passed as the modelled sqrtH) and the one-observation series [0.01],
historical_var silently returns the number 0 instead of failing with a
domain error: the source validates nothing. -/
theorem C4_counterexample : historical_var [1 / 100] (19 / 20) 0 = some 0 := by
  norm_num [historical_var, np_percentile, percentile_interp]

/-- Claim C4 as amended: the estimators fail only on an empty return
series (the percentile call errors on an empty array); a degenerate
holding period (0, hence sqrt 0 = 0) and a singular covariance matrix
(quadratic form 0, hence sqrt 0 = 0) are not rejected and produce the
number 0. -/
theorem C4_no_validation :
    (∀ confidence sqrtH : ℚ, historical_var [] confidence sqrtH = none) ∧
    historical_var [1 / 100] (19 / 20) 0 = some 0 ∧
    quadForm [1] [[0]] = 0 ∧ (∀ z pv : ℚ, portfolio_var 0 z pv = 0) := by
  refine ⟨?_, ?_, ?_, ?_⟩
  · intro confidence sqrtH
    simp [historical_var, np_percentile]
  · norm_num [historical_var, np_percentile, percentile_interp]
  · norm_num [quadForm, List.range_succ]
  · intro z pv
    unfold portfolio_var
    ring

/-! ## Claim C5 -/

/-- Claim C5, counterexample: correlation 1 lies outside [0, 1), yet
credit_var raises no domain error: with np.sqrt 1 = 1 and np.sqrt 0 = 0
the asset value degenerates to the systematic factor and the call
returns a numeric record. -/
theorem C5_counterexample :
    credit_var (fun x => x) (fun _ => 0) (fun _ => (0, fun _ => 1))
      [1] [1 / 2] [1] 1 2 (1 / 2) = some ⟨0, 0, 0⟩ := by
  norm_num [credit_var, trial_loss, counterparty_defaults, normPpf, np_percentile,
    percentile_interp, npMean, npMax, List.insertionSort, List.orderedInsert,
    List.range_succ]
  rfl

/-- Claim C5 as amended: credit_var validates neither the correlation
nor the simulation count.  For every correlation whatsoever (including
values outside [0, 1)) it returns a numeric record whenever n_sims ≥ 1
and the confidence lies in [0, 1]; n_sims = 0 fails only incidentally,
because the percentile of the empty loss sample errors. -/
theorem C5_no_param_validation :
    (∀ (sq f : ℚ → ℚ) (normals : ℕ → ℚ × (ℕ → ℚ))
      (exposures pds lgds : List ℚ) (correlation confidence : ℚ) (n_sims : ℕ),
      1 ≤ n_sims → 0 ≤ confidence → confidence ≤ 1 →
      ∃ r, credit_var sq f normals exposures pds lgds correlation n_sims
        confidence = some r) ∧
    (∀ (sq f : ℚ → ℚ) (normals : ℕ → ℚ × (ℕ → ℚ))
      (exposures pds lgds : List ℚ) (correlation confidence : ℚ),
      credit_var sq f normals exposures pds lgds correlation 0 confidence
        = none) := by
  constructor
  · intro sq f normals exposures pds lgds correlation confidence n_sims hn h0 h1
    exact credit_var_isSome sq f normals exposures pds lgds correlation n_sims
      confidence hn h0 h1
  · intro sq f normals exposures pds lgds correlation confidence
    simp [credit_var, np_percentile]

/-- Witness for the amended C5 theorem: a one-trial call with the
out-of-domain correlation 1 still returns a record. -/
theorem C5_no_param_validation_witness :
    ∃ r, credit_var (fun x => x) (fun _ => 0) (fun _ => (0, fun _ => 1))
      [1] [1 / 2] [1] 1 1 (1 / 2) = some r :=
  C5_no_param_validation.1 (fun x => x) (fun _ => 0) (fun _ => (0, fun _ => 1))
    [1] [1 / 2] [1] 1 (1 / 2) 1 (by norm_num) (by norm_num) (by norm_num)

/-! ## Claim C6 -/

/-- Claim C6: a counterparty with pd = 0 has threshold -infinity and
never defaults, one with pd = 1 has threshold +infinity and defaults in
every trial (whatever its finite latent asset value is), and a call
whose pd vector contains both boundary values still returns a record
rather than raising: the saturating inverse CDF is total. -/
theorem C6_pd_boundaries :
    (∀ (f : ℚ → ℚ) (asset : ℚ), counterparty_defaults f asset 0 = false) ∧
    (∀ (f : ℚ → ℚ) (asset : ℚ), counterparty_defaults f asset 1 = true) ∧
    (∀ (sq f : ℚ → ℚ) (normals : ℕ → ℚ × (ℕ → ℚ)) (exposures lgds : List ℚ)
      (correlation confidence : ℚ) (n_sims : ℕ),
      1 ≤ n_sims → 0 ≤ confidence → confidence ≤ 1 →
      ∃ r, credit_var sq f normals exposures [0, 1] lgds correlation n_sims
        confidence = some r) := by
  refine ⟨?_, ?_, ?_⟩
  · intro f asset
    simp [counterparty_defaults, normPpf]
  · intro f asset
    have h1 : (((asset : ℚ) : WithTop ℚ) : WithBot (WithTop ℚ)) <
        ((⊤ : WithTop ℚ) : WithBot (WithTop ℚ)) := by
      rw [WithBot.coe_lt_coe]
      exact WithTop.coe_lt_top asset
    rw [counterparty_defaults, normPpf, if_neg (by norm_num : (1 : ℚ) ≠ 0),
      if_pos rfl]
    exact decide_eq_true h1
  · intro sq f normals exposures lgds correlation confidence n_sims hn h0 h1
    exact credit_var_isSome sq f normals exposures [0, 1] lgds correlation
      n_sims confidence hn h0 h1

/-- Witness for C6: the boundary defaults at a concrete asset value and
a concrete two-counterparty call with pds [0, 1]. -/
theorem C6_pd_boundaries_witness :
    counterparty_defaults (fun _ => 7) 5 0 = false ∧
    counterparty_defaults (fun _ => 7) 5 1 = true ∧
    ∃ r, credit_var (fun x => x) (fun _ => 0) (fun _ => (0, fun _ => 1))
      [1, 1] [0, 1] [1, 1] 0 1 (1 / 2) = some r :=
  ⟨C6_pd_boundaries.1 (fun _ => 7) 5, C6_pd_boundaries.2.1 (fun _ => 7) 5,
    C6_pd_boundaries.2.2 (fun x => x) (fun _ => 0) (fun _ => (0, fun _ => 1))
      [1, 1] [1, 1] 0 (1 / 2) 1 (by norm_num) (by norm_num) (by norm_num)⟩

/-! ## Claims C7 and C10: expected shortfall -/

theorem demo_historical_eval :
    historical_var [-1/20, 1/50, -3/100, 1/100, -2/25, 1/25] (19/20) 1 =
      some (29/400) := by
  norm_num [historical_var, np_percentile, percentile_interp, List.insertionSort,
    List.orderedInsert]
  exact ⟨-(29/400), ⟨by simp, rfl⟩, by norm_num⟩

theorem demo_es_eval :
    expected_shortfall [-1/20, 1/50, -3/100, 1/100, -2/25, 1/25] (19/20) =
      some (2/25) := by
  simp only [expected_shortfall, demo_historical_eval]
  norm_num [List.filter, npMean]

/-- Claim C7: expected_shortfall first computes the historical VaR v at
the given confidence (holding period 1); when some return lies strictly
below -v it returns the mean magnitude of exactly those returns, and
when none does it returns v itself — in both cases a value, never an
error. -/
theorem C7_expected_shortfall_spec (returns : List ℚ) (confidence v : ℚ)
    (hv : historical_var returns confidence 1 = some v) :
    (returns.filter (fun r => r < -v) ≠ [] →
      expected_shortfall returns confidence =
        some (((returns.filter (fun r => r < -v)).map (fun r => -r)).sum /
          ((returns.filter (fun r => r < -v)).length : ℚ))) ∧
    (returns.filter (fun r => r < -v) = [] →
      expected_shortfall returns confidence = some v) := by
  have hv0 : 0 ≤ v := historical_var_nonneg hv
  constructor
  · intro hne
    have hlen : 0 < (returns.filter (fun r => r < -v)).length :=
      List.length_pos.2 hne
    simp only [expected_shortfall, hv, if_pos hlen]
    congr 1
    have hall : ∀ x ∈ returns.filter (fun r => r < -v), x ≤ -v := by
      intro x hx
      exact le_of_lt (of_decide_eq_true (List.mem_filter.1 hx).2)
    have hlenq : (0 : ℚ) < ((returns.filter (fun r => r < -v)).length : ℚ) := by
      exact_mod_cast hlen
    have hsum : (returns.filter (fun r => r < -v)).sum ≤ 0 := by
      have h1 := sum_le_mul_length _ (-v) hall
      nlinarith
    have hmean : npMean (returns.filter (fun r => r < -v)) ≤ 0 := by
      rw [npMean]
      exact div_nonpos_of_nonpos_of_nonneg hsum (le_of_lt hlenq)
    rw [abs_of_nonpos hmean, npMean, sum_map_neg, neg_div]
  · intro he
    simp [expected_shortfall, hv, he]

/-- Witness for C7 on the six-observation demo series at confidence
0.95: VaR is 29/400 and the only stranded return is -2/25, so the
expected shortfall is 2/25. -/
theorem C7_expected_shortfall_spec_witness :
    expected_shortfall [-1/20, 1/50, -3/100, 1/100, -2/25, 1/25] (19/20) =
      some (2/25) := by
  have h := (C7_expected_shortfall_spec
    [-1/20, 1/50, -3/100, 1/100, -2/25, 1/25] (19/20) (29/400)
    demo_historical_eval).1 (by norm_num [List.filter])
  rw [h]
  norm_num [List.filter]

/-- Claim C10: the expected shortfall dominates the historical VaR it is
built on — strictly below -v every tail return exceeds v in magnitude,
and the empty-tail fallback gives equality. -/
theorem C10_es_ge_var (returns : List ℚ) (confidence v e : ℚ)
    (hv : historical_var returns confidence 1 = some v)
    (he : expected_shortfall returns confidence = some e) : v ≤ e := by
  have hv0 : 0 ≤ v := historical_var_nonneg hv
  simp only [expected_shortfall, hv] at he
  by_cases hlen : 0 < (returns.filter (fun r => r < -v)).length
  · rw [if_pos hlen] at he
    have hee : |npMean (returns.filter (fun r => r < -v))| = e :=
      Option.some_injective _ he
    have hall : ∀ x ∈ returns.filter (fun r => r < -v), x ≤ -v := by
      intro x hx
      exact le_of_lt (of_decide_eq_true (List.mem_filter.1 hx).2)
    have hlenq : (0 : ℚ) < ((returns.filter (fun r => r < -v)).length : ℚ) := by
      exact_mod_cast hlen
    have hsum := sum_le_mul_length _ (-v) hall
    have hmean : npMean (returns.filter (fun r => r < -v)) ≤ -v := by
      rw [npMean, div_le_iff₀ hlenq]
      linarith
    calc v ≤ -npMean (returns.filter (fun r => r < -v)) := by linarith
      _ ≤ |npMean (returns.filter (fun r => r < -v))| := neg_le_abs _
      _ = e := hee
  · rw [if_neg hlen] at he
    have hve : v = e := Option.some_injective _ he
    linarith

/-- Witness for C10 on the demo series: VaR 29/400 ≤ ES 2/25 = 32/400. -/
theorem C10_es_ge_var_witness : (29/400 : ℚ) ≤ 2/25 :=
  C10_es_ge_var [-1/20, 1/50, -3/100, 1/100, -2/25, 1/25] (19/20) (29/400)
    (2/25) demo_historical_eval demo_es_eval

/-! ## Claim C8 -/

/-- Claim C8, counterexample: with window size 0 and the non-empty
series [1], the first loop iteration already slices an empty chunk and
the percentile call errors, so rolling_var does not return a series of
length n at all. -/
theorem C8_counterexample : rolling_var [1] 0 (19 / 20) = none := by
  norm_num [rolling_var, rolling_entry, historical_var, np_percentile,
    List.range_succ, collect]

/-- Claim C8 as amended: for every window size W ≥ 1 and confidence in
[0, 1], rolling_var returns a series of the input's length whose entries
before index W are undefined (none) and whose entry at each index
i ≥ W is the historical VaR of exactly the W observations at indices
i-W .. i-1 — the window never includes index i itself. -/
theorem C8_rolling_var_spec (returns : List ℚ) (window : ℕ) (confidence : ℚ)
    (hw : 1 ≤ window) (h0 : 0 ≤ confidence) (h1 : confidence ≤ 1) :
    ∃ s, rolling_var returns window confidence = some s ∧
      s.length = returns.length ∧
      (∀ i, i < window → i < returns.length → s[i]? = some none) ∧
      (∀ i, window ≤ i → i < returns.length →
        s[i]? = Option.map some
          (historical_var ((returns.drop (i - window)).take window)
            confidence 1)) := by
  classical
  refine ⟨(List.range returns.length).map (fun i =>
    if i < window then none
    else some ((historical_var ((returns.drop (i - window)).take window)
      confidence 1).getD 0)), ?_, ?_, ?_, ?_⟩
  · unfold rolling_var
    apply collect_map
    intro i hi
    by_cases hiw : i < window
    · simp [rolling_entry, hiw]
    · have hin : i < returns.length := List.mem_range.1 hi
      have hslice : ((returns.drop (i - window)).take window) ≠ [] := by
        apply List.length_pos.1
        rw [List.length_take, List.length_drop]
        omega
      obtain ⟨v, hv⟩ := historical_var_isSome
        ((returns.drop (i - window)).take window) confidence 1 hslice h0 h1
      simp [rolling_entry, hiw, hv]
  · simp
  · intro i hiw hin
    rw [List.getElem?_map, List.getElem?_range hin]
    simp [hiw]
  · intro i hiw hin
    rw [List.getElem?_map, List.getElem?_range hin]
    have hslice : ((returns.drop (i - window)).take window) ≠ [] := by
      apply List.length_pos.1
      rw [List.length_take, List.length_drop]
      omega
    obtain ⟨v, hv⟩ := historical_var_isSome
      ((returns.drop (i - window)).take window) confidence 1 hslice h0 h1
    rw [hv]
    simp [Nat.not_lt.2 hiw, hv]

/-- Witness for the amended C8 theorem at returns [1/2, -1/2, 1/4] with
window 1 and confidence 0.95. -/
theorem C8_rolling_var_spec_witness :
    ∃ s, rolling_var [1/2, -1/2, 1/4] 1 (19/20) = some s ∧
      s.length = ([1/2, -1/2, 1/4] : List ℚ).length ∧
      (∀ i, i < 1 → i < ([1/2, -1/2, 1/4] : List ℚ).length → s[i]? = some none) ∧
      (∀ i, 1 ≤ i → i < ([1/2, -1/2, 1/4] : List ℚ).length →
        s[i]? = Option.map some
          (historical_var (([1/2, -1/2, 1/4].drop (i - 1)).take 1) (19/20) 1)) :=
  C8_rolling_var_spec [1/2, -1/2, 1/4] 1 (19/20) (by norm_num) (by norm_num)
    (by norm_num)

/-! ## Claim C9 -/

/-- Claim C9: every engine operation of the embedding is a pure
function, so two invocations of monte_carlo_var, credit_var or
var_backtest with identical inputs — in particular with the one deviate
stream the fixed np.random.seed(42) makes the source draw — produce
identical outputs; re-scoring the same (returns, VaR series) pair yields
the identical backtest record. -/
theorem C9_determinism :
    ∀ (g : ℕ → ℚ) (returns : List ℚ) (n_sims : ℕ)
      (confidence h sqrtH sigma : ℚ) (sq ppf : ℚ → ℚ)
      (normals : ℕ → ℚ × (ℕ → ℚ)) (exposures pds lgds : List ℚ)
      (correlation c : ℚ) (n : ℕ) (var_series : List (Option ℚ)),
      monte_carlo_var g returns n_sims confidence h sqrtH sigma =
        monte_carlo_var g returns n_sims confidence h sqrtH sigma ∧
      credit_var sq ppf normals exposures pds lgds correlation n c =
        credit_var sq ppf normals exposures pds lgds correlation n c ∧
      var_backtest returns var_series c = var_backtest returns var_series c :=
  by intros; exact ⟨rfl, rfl, rfl⟩
